import Mathlib

/-!
Verification development for the solar-sensor analysis script
(`src/scripts/analysis.py`).

The script processes CSV tables (pandas DataFrames).  We embed a table as an
association list from column names to columns; a column is a list of cells.
A cell is `Option ℚ`: `none` models a missing value (NaN), `some q` a numeric
reading.  Pandas semantics used by the script and mirrored here:
  * `df[c] < 0` is `false` on NaN cells;
  * Python `max(x, 0)` returns `x` (i.e. NaN) when `x` is NaN, since both
    comparisons with NaN are false;
  * assigning `df[c] = v` replaces an existing column in place or appends a
    new column at the end;
  * `df.dropna(subset=[...])` drops whole rows and returns a copy, leaving
    the caller's frame untouched;
  * `pd.cut(x, bins, include_lowest=True)` uses right-closed intervals
    `(e i, e (i+1)]`, with the first interval additionally closed on the
    left; values outside every interval map to NaN and are not counted by
    `value_counts`.
-/

/-- A cell of the table: `none` is a missing value (NaN). -/
abbrev Val : Type := Option ℚ

/-- A table: ordered association list of named columns. -/
abbrev DataFrame : Type := List (String × List Val)

/-- Column access, `df[c]` (first column with that name). -/
def getCol : DataFrame → String → Option (List Val)
  | [], _ => none
  | p :: rest, name => if p.1 = name then some p.2 else getCol rest name

/-- Column-presence test, `c in df.columns`. -/
def hasCol (df : DataFrame) (name : String) : Bool :=
  (getCol df name).isSome

/-- Column assignment, `df[c] = vals`: replace in place, or append at the
end when the column does not exist yet. -/
def setCol : DataFrame → String → List Val → DataFrame
  | [], name, vals => [(name, vals)]
  | p :: rest, name, vals =>
      if p.1 = name then (name, vals) :: rest else p :: setCol rest name vals

/-- Number of rows of the table (length of its first column). -/
def nRows : DataFrame → Nat
  | [] => 0
  | p :: _ => p.2.length

/-- Well-formedness of a table: every column has the common row count. -/
def Wf (df : DataFrame) (n : Nat) : Prop :=
  nRows df = n ∧ ∀ p ∈ df, p.2.length = n

instance instDecidableWf (df : DataFrame) (n : Nat) : Decidable (Wf df n) :=
  inferInstanceAs (Decidable (nRows df = n ∧ ∀ p ∈ df, p.2.length = n))

/-- The elementwise test `value < 0`; false on NaN, as in pandas. -/
def isNegVal : Val → Bool
  | some q => decide (q < 0)
  | none => false

/-- Python `max(x, 0)` as applied by `clean_data`; NaN passes through. -/
def clampVal : Val → Val
  | some q => some (max q 0)
  | none => none

/-- One step of `df[t Cleaning] = df[t Cleaning] | (df[column] < 0)` at a
single cell: the flag column holds integers 0/1, OR-ing with a boolean. -/
def orFlag (a : Val) (b : Bool) : Val :=
  if b then some 1 else a

/-- The fixed list `columns_to_clean` of `clean_data`. -/
def columnsToClean : List String :=
  ["GHI", "DNI", "DHI", "ModA", "ModB", "WS", "WSgust", "RH"]

/-- The loop body of `clean_data` for one monitored column: skip the column
if absent, otherwise OR its negativity mask into `Cleaning` and clamp the
column with `max(value, 0)`. -/
def cleanStep (d : DataFrame) (c : String) : DataFrame :=
  match getCol d c with
  | none => d
  | some vals =>
      let neg := vals.map isNegVal
      let d1 := setCol d "Cleaning"
        (List.zipWith orFlag ((getCol d "Cleaning").getD []) neg)
      setCol d1 c (vals.map clampVal)

/-- `df[t Cleaning] = 0`: initialise the flag column to zero on every row. -/
def initClean (df : DataFrame) : DataFrame :=
  setCol df "Cleaning" (List.replicate (nRows df) (some 0))

/-- `clean_data` (src/scripts/analysis.py, lines 15-32): initialise the
`Cleaning` column to 0, then for each monitored column present, OR the
per-row negativity into `Cleaning` and replace values by `max(value, 0)`. -/
def cleanData (df : DataFrame) : DataFrame :=
  columnsToClean.foldl cleanStep (initClean df)

/-- Whether row `i` of `df` holds a negative value in monitored column `c`. -/
def negCell (df : DataFrame) (c : String) (i : Nat) : Bool :=
  match getCol df c with
  | some vals => isNegVal (vals.getD i none)
  | none => false

/-- Whether row `i` of `df` holds a negative value in some monitored column. -/
def negInRow (df : DataFrame) (i : Nat) : Bool :=
  columnsToClean.any (fun c => negCell df c i)

example :
    cleanData [("GHI", [some (-50)]), ("DNI", [some 100]),
               ("WD", [some 45]), ("WS", [some 3])] =
      [("GHI", [some 0]), ("DNI", [some 100]), ("WD", [some 45]),
       ("WS", [some 3]), ("Cleaning", [some 1])] := by
  decide

example :
    cleanData [("GHI", [some 5, none, some (-1)])] =
      [("GHI", [some 5, none, some 0]), ("Cleaning", [some 0, some 0, some 1])] := by
  decide

/-! ## Outputs of the plotting and summary routines.

Plot functions only produce files and console messages; we record each
`plt.savefig` as a `png` output (the radial bar chart additionally records
the frequency counts it renders), each `print` as a `notice`, and each
summary CSV as a `summary` output carrying its rows. -/

/-- One row of a summary table: descriptive statistics for one column.
Modelled from the spec (section 4.2): pandas `describe` statistics per
column, with the injected median and missing-value count; of the describe
output we keep count, mean, min and max (std and quartiles are further
describe fields of the same kind and are not examined by any claim). -/
structure SummaryRow where
  column : String
  count : Nat
  mean : Option ℚ
  minVal : Option ℚ
  maxVal : Option ℚ
  median : Option ℚ
  missing : Nat
  deriving DecidableEq

/-- An observable effect of the script: a saved image, a saved chart with
its rendered counts, a written summary CSV, or a console message. -/
inductive Output where
  | png : String → Output
  | chart : String → List Nat → Output
  | summary : String → List SummaryRow → Output
  | notice : String → Output
  deriving DecidableEq

/-- Result of a plot routine: the files/messages it produced, and the
caller's table as it stands after the call (the routines mutate nothing,
but the embedding records this explicitly). -/
structure PlotResult where
  outputs : List Output
  df : DataFrame

/-! ## Wind analysis (`plot_wind_analysis`). -/

/-- Row-keep mask for `df.dropna(subset=...)`: a row is kept when every
subset column present holds a non-null value there. -/
def keepMask (df : DataFrame) (subset : List String) : List Bool :=
  subset.foldl
    (fun m c =>
      match getCol df c with
      | some vals => List.zipWith (fun b v => b && v.isSome) m vals
      | none => m)
    (List.replicate (nRows df) true)

/-- Filter one column by a row-keep mask. -/
def applyMask (mask : List Bool) (vals : List Val) : List Val :=
  (List.zip vals mask).filterMap (fun p => if p.2 then some p.1 else none)

/-- `df.dropna(subset=subset)`: drop every row holding a null in one of the
subset columns; returns a new frame, the argument is not mutated. -/
def dropnaSubset (df : DataFrame) (subset : List String) : DataFrame :=
  df.map (fun p => (p.1, applyMask (keepMask df subset) p.2))

/-- `pd.cut(x, bins=edges, include_lowest=il)` for one scalar: index of the
first right-closed interval `(edges i, edges (i+1)]` containing `x`, the
first interval also closed on the left when `il`; `none` (NaN) outside. -/
def cutBins (edges : List ℚ) (il : Bool) (x : ℚ) : Option Nat :=
  (List.range (edges.length - 1)).find?
    (fun i =>
      (if i == 0 && il then decide (edges.getD i 0 ≤ x)
       else decide (edges.getD i 0 < x))
      && decide (x ≤ edges.getD (i + 1) 0))

/-- `np.linspace(0, 360, 13)`: the 13 fixed bin edges 0, 30, ..., 360. -/
def binEdges : List ℚ :=
  (List.range 13).map (fun i => mkRat (30 * (i : ℤ)) 1)

/-- The directional bin of one WD value, as assigned by
`pd.cut(df[t WD], bins=bin_edges, include_lowest=True)`. -/
def windBin (w : ℚ) : Option Nat :=
  cutBins binEdges true w

/-- `value_counts(sort=False)` of the categorical binning: the count of
rows falling in each of the 12 directional bins, in bin order; null and
out-of-range values are not counted. -/
def windFrequency (wd : List Val) : List Nat :=
  (List.range 12).map
    (fun i =>
      wd.countP
        (fun v =>
          match v with
          | some w => windBin w == some i
          | none => false))

/-- `plot_wind_analysis` (lines 69-116): skip with a message when `WS` or
`WD` is missing; otherwise drop rows with null `WS`/`WD` into a local
frame, save the wind rose, and save the radial bar chart of the 12-bin
directional frequencies.  The caller's table is returned unchanged:
`df.dropna` rebinding is local to the function. -/
def plotWindAnalysis (df : DataFrame) (fileName : String) : PlotResult :=
  if hasCol df "WS" = false ∨ hasCol df "WD" = false then
    { outputs := [Output.notice
        ("Skipping wind analysis for " ++ fileName ++ ": WS or WD column missing.")],
      df := df }
  else
    let d := dropnaSubset df ["WS", "WD"]
    let freq := windFrequency ((getCol d "WD").getD [])
    { outputs :=
        [Output.png (fileName ++ "_wind_rose.png"),
         Output.notice ("Wind rose plot for " ++ fileName ++ " saved to results"),
         Output.chart (fileName ++ "_wind_direction_variability.png") freq,
         Output.notice
           ("Wind direction variability plot for " ++ fileName ++ " saved to results")],
      df := df }

/-! ## Temperature/humidity analysis (`plot_temperature_analysis`). -/

/-- `plot_temperature_analysis` (lines 34-67): skip with a message unless
`RH`, `ModA`, `ModB` are all present; otherwise save the RH-vs-temperature
scatter, and additionally the RH-vs-solar-radiation scatter when `GHI` is
also present.  The caller's table is never modified. -/
def plotTemperatureAnalysis (df : DataFrame) (fileName : String) : PlotResult :=
  if hasCol df "RH" = false ∨ hasCol df "ModA" = false ∨ hasCol df "ModB" = false then
    { outputs := [Output.notice
        ("Skipping temperature analysis for " ++ fileName ++
          ": missing required columns RH, ModA, ModB.")],
      df := df }
  else
    { outputs :=
        [Output.png (fileName ++ "_RH_vs_Temperature.png"),
         Output.notice
           ("RH vs. Temperature scatter plot for " ++ fileName ++ " saved to results")] ++
        (if hasCol df "GHI" = true then
          [Output.png (fileName ++ "_RH_vs_SolarRadiation.png"),
           Output.notice
             ("RH vs. Solar Radiation scatter plot for " ++ fileName ++ " saved to results")]
         else []),
      df := df }

/-! ## Driver (`main`). -/

/-- `os.path.basename(p).split(".")[0]`: base name of a file name. -/
def baseName (fileName : String) : String :=
  (fileName.splitOn ".").headD ""

/-- The per-file body of `main` (lines 125-135): read, clean, then run the
wind analysis followed by the temperature analysis; the temperature
analysis receives the table exactly as the wind analysis left it. -/
def processFile (fileName : String) (raw : DataFrame) : List Output :=
  let df := cleanData raw
  let base := baseName fileName
  let w := plotWindAnalysis df base
  let t := plotTemperatureAnalysis w.df base
  w.outputs ++ t.outputs

/-- The directory loop of `main` (lines 122-135): process each `.csv` file
of the input directory in order; other files are ignored. -/
def mainRun (files : List (String × DataFrame)) : List Output :=
  files.foldr
    (fun f acc =>
      if f.1.endsWith ".csv" then processFile f.1 f.2 ++ acc else acc)
    []

/-! ## Summarizer.

Modelled from the spec: the Summarizer script variant (spec section 4.2)
is not included under src/ — the script in src/ only plots.  Per the spec,
it loads each CSV, cleans it with the Cleaner, computes per-column
descriptive statistics with an injected median and missing-value count,
and writes them to the deterministic path derived from the base name with
suffix `_summary`. -/

/-- Non-null values of a column. -/
def nonNull (vals : List Val) : List ℚ :=
  vals.filterMap id

/-- Mean of a list of readings; `none` on the empty list. -/
def meanOf (l : List ℚ) : Option ℚ :=
  match l with
  | [] => none
  | x :: xs => some ((x :: xs).sum / (x :: xs).length)

/-- Minimum of a list of readings; `none` on the empty list. -/
def minOf (l : List ℚ) : Option ℚ :=
  match l with
  | [] => none
  | x :: xs => some (xs.foldl min x)

/-- Maximum of a list of readings; `none` on the empty list. -/
def maxOf (l : List ℚ) : Option ℚ :=
  match l with
  | [] => none
  | x :: xs => some (xs.foldl max x)

/-- Statistical median: middle of the sorted values, averaging the two
middles on an even count; `none` on the empty list. -/
def medianOf (l : List ℚ) : Option ℚ :=
  match l.insertionSort (· ≤ ·) with
  | [] => none
  | x :: xs =>
      let s := x :: xs
      if s.length % 2 = 1 then some (s.getD (s.length / 2) 0)
      else some ((s.getD (s.length / 2 - 1) 0 + s.getD (s.length / 2) 0) / 2)

/-- Modelled from the spec: per-column descriptive statistics of the
Summarizer — one summary row per column, holding describe-style aggregates
over the non-null values, the injected median, and the count of null
entries. -/
def describeTable (df : DataFrame) : List SummaryRow :=
  df.map
    (fun p =>
      { column := p.1
        count := (nonNull p.2).length
        mean := meanOf (nonNull p.2)
        minVal := minOf (nonNull p.2)
        maxVal := maxOf (nonNull p.2)
        median := medianOf (nonNull p.2)
        missing := p.2.countP (fun v => v.isNone) })

/-- Modelled from the spec: the Summarizer's per-file work — clean the
loaded table, compute its statistics, and write them to
`{base_name}_summary.csv`. -/
def summarizeFile (fileName : String) (raw : DataFrame) : Output :=
  Output.summary (baseName fileName ++ "_summary.csv")
    (describeTable (cleanData raw))

/-- Modelled from the spec: the Summarizer's directory loop — one summary
written per `.csv` file of the input directory, in order. -/
def runSummarizer (files : List (String × DataFrame)) : List Output :=
  files.foldr
    (fun f acc =>
      if f.1.endsWith ".csv" then summarizeFile f.1 f.2 :: acc else acc)
    []

/-! ## Lemmas about column access and assignment. -/

theorem getCol_setCol_self (df : DataFrame) (name : String) (vals : List Val) :
    getCol (setCol df name vals) name = some vals := by
  induction df with
  | nil => simp [setCol, getCol]
  | cons p rest ih =>
      by_cases h : p.1 = name
      · simp [setCol, h, getCol]
      · simp [setCol, h, getCol, ih]

theorem getCol_setCol_ne {m name : String} (df : DataFrame) (h : m ≠ name)
    (vals : List Val) : getCol (setCol df name vals) m = getCol df m := by
  have hnm : ¬(name = m) := fun hh => h hh.symm
  induction df with
  | nil => simp [setCol, getCol, hnm]
  | cons p rest ih =>
      by_cases hp : p.1 = name
      · subst hp
        simp [setCol, getCol, hnm]
      · simp only [setCol, hp, if_false, getCol, ih]

theorem mem_of_getCol {df : DataFrame} {c : String} {vals : List Val}
    (h : getCol df c = some vals) : (c, vals) ∈ df := by
  induction df with
  | nil => simp [getCol] at h
  | cons p rest ih =>
      obtain ⟨a, b⟩ := p
      by_cases hp : a = c
      · subst hp
        simp [getCol] at h
        simp [h]
      · simp [getCol, hp] at h
        exact List.mem_cons_of_mem _ (ih h)

theorem ne_nil_of_getCol {df : DataFrame} {c : String} {vals : List Val}
    (h : getCol df c = some vals) : df ≠ [] := by
  intro hd
  subst hd
  simp [getCol] at h

theorem setCol_length_forall {df : DataFrame} {n : Nat} {name : String}
    {vals : List Val} (hdf : ∀ p ∈ df, p.2.length = n) (hv : vals.length = n) :
    ∀ p ∈ setCol df name vals, p.2.length = n := by
  induction df with
  | nil =>
      intro p hp
      simp [setCol] at hp
      simp [hp, hv]
  | cons q rest ih =>
      intro p hp
      by_cases hq : q.1 = name
      · simp [setCol, hq] at hp
        rcases hp with rfl | hp
        · exact hv
        · exact hdf p (List.mem_cons_of_mem _ hp)
      · simp only [setCol, hq, if_false, List.mem_cons] at hp
        rcases hp with rfl | hp
        · exact hdf p (List.mem_cons_self _ _)
        · exact ih (fun r hr => hdf r (List.mem_cons_of_mem _ hr)) p hp

theorem nRows_of_forall {df : DataFrame} {n : Nat} (hne : df ≠ [])
    (h : ∀ p ∈ df, p.2.length = n) : nRows df = n := by
  cases df with
  | nil => exact absurd rfl hne
  | cons p rest => exact h p (List.mem_cons_self _ _)

/-! ## Pointwise list lemmas. -/

theorem getD_zipWith_orFlag :
    ∀ (a : List Val) (b : List Bool) (i : Nat), i < a.length → i < b.length →
      (List.zipWith orFlag a b).getD i none =
        orFlag (a.getD i none) (b.getD i false)
  | [], _, i, ha, _ => by simp at ha
  | _ :: _, [], i, _, hb => by simp at hb
  | x :: xs, y :: ys, 0, _, _ => by simp
  | x :: xs, y :: ys, i + 1, ha, hb => by
      simp only [List.zipWith_cons_cons, List.getD_cons_succ]
      exact getD_zipWith_orFlag xs ys i (Nat.lt_of_succ_lt_succ ha)
        (Nat.lt_of_succ_lt_succ hb)

theorem getD_map_of_lt {α β : Type} (f : α → β) :
    ∀ (l : List α) (i : Nat), i < l.length → ∀ (d : β) (d2 : α),
      (l.map f).getD i d = f (l.getD i d2)
  | [], i, hi => by simp at hi
  | x :: xs, 0, _ => by simp
  | x :: xs, i + 1, hi => by
      intro d d2
      simp only [List.map_cons, List.getD_cons_succ]
      exact getD_map_of_lt f xs i (Nat.lt_of_succ_lt_succ hi) d d2

theorem replicate_getD {α : Type} (a d : α) :
    ∀ (n i : Nat), i < n → (List.replicate n a).getD i d = a
  | n + 1, 0, _ => by simp [List.replicate]
  | n + 1, i + 1, hi => by
      simp only [List.replicate, List.getD_cons_succ]
      exact replicate_getD a d n i (Nat.lt_of_succ_lt_succ hi)

theorem any_congr_of_mem {α : Type} {f g : α → Bool} :
    ∀ {l : List α}, (∀ c ∈ l, f c = g c) → l.any f = l.any g
  | [], _ => rfl
  | x :: xs, h => by
      simp only [List.any_cons]
      rw [h x (List.mem_cons_self _ _),
        any_congr_of_mem (fun c hc => h c (List.mem_cons_of_mem _ hc))]

/-! ## Facts about the cell operations. -/

theorem orFlag_orFlag (a : Val) (b c : Bool) :
    orFlag (orFlag a b) c = orFlag a (b || c) := by
  cases b <;> cases c <;> simp [orFlag]

theorem orFlag_zero (b : Bool) :
    orFlag (some 0) b = (if b then some 1 else some 0) := by
  cases b <;> simp [orFlag]

theorem clampVal_clampVal (v : Val) : clampVal (clampVal v) = clampVal v := by
  cases v with
  | none => rfl
  | some q => simp [clampVal, max_assoc]

theorem isNegVal_clampVal (v : Val) : isNegVal (clampVal v) = false := by
  cases v with
  | none => rfl
  | some q =>
      simp only [clampVal, isNegVal, decide_eq_false_iff_not, not_lt]
      exact le_max_right q 0

theorem clampVal_nonneg {v : Val} {q : ℚ} (h : clampVal v = some q) : 0 ≤ q := by
  cases v with
  | none => simp [clampVal] at h
  | some p =>
      simp only [clampVal, Option.some.injEq] at h
      exact h ▸ le_max_right p 0

theorem isNegVal_eq_true_iff {v : Val} :
    isNegVal v = true ↔ ∃ q : ℚ, v = some q ∧ q < 0 := by
  cases v <;> simp [isNegVal]

/-! ## The effect of one `clean_data` loop iteration. -/

theorem getCol_cleanStep_other {d : DataFrame} {a c : String} (hca : c ≠ a)
    (hcC : c ≠ "Cleaning") : getCol (cleanStep d a) c = getCol d c := by
  cases h : getCol d a with
  | none => simp [cleanStep, h]
  | some vals =>
      simp [cleanStep, h, getCol_setCol_ne _ hca, getCol_setCol_ne _ hcC]

theorem getCol_cleanStep_self {d : DataFrame} {a : String} :
    getCol (cleanStep d a) a = (getCol d a).map (List.map clampVal) := by
  cases h : getCol d a with
  | none => simp [cleanStep, h]
  | some vals => simp [cleanStep, h, getCol_setCol_self]

theorem getCol_cleanStep_cleaning_none {d : DataFrame} {a : String}
    (h : getCol d a = none) : cleanStep d a = d := by
  simp [cleanStep, h]

theorem getCol_cleanStep_eq {d : DataFrame} {a : String} {vals fl : List Val}
    (h : getCol d a = some vals) (hfl : getCol d "Cleaning" = some fl) :
    cleanStep d a =
      setCol (setCol d "Cleaning" (List.zipWith orFlag fl (vals.map isNegVal)))
        a (vals.map clampVal) := by
  simp [cleanStep, h, hfl]

/-! ## Characterisation of the `clean_data` fold. -/

theorem getCol_foldl_not_mem :
    ∀ (L : List String) (d : DataFrame) (c : String), c ∉ L → c ≠ "Cleaning" →
      getCol (L.foldl cleanStep d) c = getCol d c
  | [], d, c, _, _ => rfl
  | a :: L, d, c, hc, hC => by
      have hca : c ≠ a := fun h => hc (h ▸ List.mem_cons_self a L)
      have hcL : c ∉ L := fun h => hc (List.mem_cons_of_mem _ h)
      rw [List.foldl_cons, getCol_foldl_not_mem L _ c hcL hC,
        getCol_cleanStep_other hca hC]

theorem getCol_foldl_clamp :
    ∀ (L : List String) (d : DataFrame) (c : String), c ∈ L → L.Nodup →
      "Cleaning" ∉ L →
      getCol (L.foldl cleanStep d) c = (getCol d c).map (List.map clampVal)
  | [], _, c, hc, _, _ => by simp at hc
  | a :: L, d, c, hc, hnd, hC => by
      obtain ⟨hna, hndL⟩ := List.nodup_cons.1 hnd
      rcases List.mem_cons.1 hc with rfl | hcL
      · rw [List.foldl_cons, getCol_foldl_not_mem L _ c hna
          (fun h => hC (h ▸ List.mem_cons_self _ _)), getCol_cleanStep_self]
      · have hca : c ≠ a := fun h => hna (h ▸ hcL)
        have hcC : c ≠ "Cleaning" :=
          fun h => hC (h ▸ List.mem_cons_of_mem _ hcL)
        rw [List.foldl_cons, getCol_foldl_clamp L _ c hcL hndL
          (fun h => hC (List.mem_cons_of_mem _ h)),
          getCol_cleanStep_other hca hcC]

theorem foldl_cleaning_flags :
    ∀ (L : List String) (d : DataFrame) (fl : List Val) (n : Nat),
      "Cleaning" ∉ L → L.Nodup →
      getCol d "Cleaning" = some fl → fl.length = n →
      (∀ p ∈ d, p.2.length = n) →
      ∃ fl2, getCol (L.foldl cleanStep d) "Cleaning" = some fl2 ∧
        fl2.length = n ∧ (∀ p ∈ L.foldl cleanStep d, p.2.length = n) ∧
        ∀ i, i < n → fl2.getD i none =
          orFlag (fl.getD i none) (L.any (fun c => negCell d c i))
  | [], d, fl, n, _, _, hfl, hlen, hwf => by
      refine ⟨fl, hfl, hlen, hwf, fun i _ => ?_⟩
      simp [orFlag]
  | a :: L, d, fl, n, hC, hnd, hfl, hlen, hwf => by
      have haC : a ≠ "Cleaning" := fun h => hC (h ▸ List.mem_cons_self _ _)
      have hCL : "Cleaning" ∉ L := fun h => hC (List.mem_cons_of_mem _ h)
      obtain ⟨hna, hndL⟩ := List.nodup_cons.1 hnd
      rw [List.foldl_cons]
      cases h : getCol d a with
      | none =>
          rw [getCol_cleanStep_cleaning_none h]
          obtain ⟨fl2, h1, h2, h3, h4⟩ :=
            foldl_cleaning_flags L d fl n hCL hndL hfl hlen hwf
          refine ⟨fl2, h1, h2, h3, fun i hi => ?_⟩
          rw [h4 i hi, List.any_cons]
          have : negCell d a i = false := by simp [negCell, h]
          rw [this, Bool.false_or]
      | some vals =>
          have hvlen : vals.length = n := hwf _ (mem_of_getCol h)
          have hstep := getCol_cleanStep_eq h hfl
          have hfl2 : getCol (cleanStep d a) "Cleaning" =
              some (List.zipWith orFlag fl (vals.map isNegVal)) := by
            rw [hstep, getCol_setCol_ne _ (fun hh => haC hh.symm),
              getCol_setCol_self]
          have hlen2 : (List.zipWith orFlag fl (vals.map isNegVal)).length = n := by
            simp [List.length_zipWith, hlen, hvlen]
          have hwf2 : ∀ p ∈ cleanStep d a, p.2.length = n := by
            rw [hstep]
            exact setCol_length_forall (setCol_length_forall hwf hlen2)
              (by simp [hvlen])
          obtain ⟨fl3, h1, h2, h3, h4⟩ :=
            foldl_cleaning_flags L (cleanStep d a)
              (List.zipWith orFlag fl (vals.map isNegVal)) n hCL hndL hfl2
              hlen2 hwf2
          refine ⟨fl3, h1, h2, h3, fun i hi => ?_⟩
          rw [h4 i hi]
          have hzip : (List.zipWith orFlag fl (vals.map isNegVal)).getD i none =
              orFlag (fl.getD i none) (isNegVal (vals.getD i none)) := by
            rw [getD_zipWith_orFlag fl (vals.map isNegVal) i
              (hlen ▸ hi) (by simp [hvlen, hi]),
              getD_map_of_lt isNegVal vals i (hvlen ▸ hi) false none]
          have hanyeq : (L.any fun c => negCell (cleanStep d a) c i) =
              (L.any fun c => negCell d c i) := by
            refine any_congr_of_mem (fun c hc => ?_)
            have hca : c ≠ a := fun hh => hna (hh ▸ hc)
            have hcC : c ≠ "Cleaning" :=
              fun hh => hCL (hh ▸ hc)
            simp [negCell, getCol_cleanStep_other hca hcC]
          rw [hzip, hanyeq, orFlag_orFlag, List.any_cons]
          have hna2 : negCell d a i = isNegVal (vals.getD i none) := by
            simp [negCell, h]
          rw [hna2]

/-! ## Characterisation of `clean_data` itself. -/

theorem monitored_ne_cleaning : ∀ c ∈ columnsToClean, c ≠ "Cleaning" := by
  decide

theorem monitored_nodup : columnsToClean.Nodup := by decide

theorem cleaning_not_monitored : "Cleaning" ∉ columnsToClean := by decide

theorem getCol_initClean_other {df : DataFrame} {c : String}
    (h : c ≠ "Cleaning") : getCol (initClean df) c = getCol df c :=
  getCol_setCol_ne _ h _

theorem getCol_initClean_cleaning (df : DataFrame) :
    getCol (initClean df) "Cleaning" =
      some (List.replicate (nRows df) (some 0)) :=
  getCol_setCol_self _ _ _

theorem cleanData_getCol_not_monitored {df : DataFrame} {c : String}
    (h1 : c ∉ columnsToClean) (h2 : c ≠ "Cleaning") :
    getCol (cleanData df) c = getCol df c := by
  rw [cleanData, getCol_foldl_not_mem _ _ _ h1 h2, getCol_initClean_other h2]

theorem cleanData_getCol_monitored {df : DataFrame} {c : String}
    (h : c ∈ columnsToClean) :
    getCol (cleanData df) c = (getCol df c).map (List.map clampVal) := by
  rw [cleanData, getCol_foldl_clamp _ _ _ h monitored_nodup
    cleaning_not_monitored, getCol_initClean_other (monitored_ne_cleaning c h)]

theorem negCell_initClean {df : DataFrame} {c : String} (h : c ≠ "Cleaning")
    (i : Nat) : negCell (initClean df) c i = negCell df c i := by
  simp [negCell, getCol_initClean_other h]

theorem cleanData_flags {df : DataFrame} {n : Nat} (h : Wf df n) :
    ∃ fl, getCol (cleanData df) "Cleaning" = some fl ∧ fl.length = n ∧
      (∀ p ∈ cleanData df, p.2.length = n) ∧
      ∀ i, i < n →
        fl.getD i none = (if negInRow df i then some 1 else some 0) := by
  obtain ⟨hn, hcols⟩ := h
  have hinit : getCol (initClean df) "Cleaning" =
      some (List.replicate n (some 0)) := by
    rw [getCol_initClean_cleaning, hn]
  have hwf0 : ∀ p ∈ initClean df, p.2.length = n :=
    setCol_length_forall hcols (by simp [hn])
  obtain ⟨fl, h1, h2, h3, h4⟩ :=
    foldl_cleaning_flags columnsToClean (initClean df)
      (List.replicate n (some 0)) n cleaning_not_monitored monitored_nodup
      hinit (by simp) hwf0
  refine ⟨fl, h1, h2, h3, fun i hi => ?_⟩
  rw [h4 i hi, replicate_getD _ _ n i hi, orFlag_zero]
  have : (columnsToClean.any fun c => negCell (initClean df) c i) =
      negInRow df i := by
    refine any_congr_of_mem (fun c hc => ?_)
    exact negCell_initClean (monitored_ne_cleaning c hc) i
  rw [this]

theorem cleanData_wf {df : DataFrame} {n : Nat} (h : Wf df n) :
    Wf (cleanData df) n := by
  obtain ⟨fl, h1, _, h3, _⟩ := cleanData_flags h
  exact ⟨nRows_of_forall (ne_nil_of_getCol h1) h3, h3⟩

theorem hasCol_cleanData {df : DataFrame} {c : String} (h2 : c ≠ "Cleaning") :
    hasCol (cleanData df) c = hasCol df c := by
  by_cases h1 : c ∈ columnsToClean
  · simp [hasCol, cleanData_getCol_monitored h1]
  · simp [hasCol, cleanData_getCol_not_monitored h1 h2]

theorem negCell_eq_true_iff {df : DataFrame} {c : String} {i : Nat} :
    negCell df c i = true ↔
      ∃ vals, getCol df c = some vals ∧
        ∃ q : ℚ, vals.getD i none = some q ∧ q < 0 := by
  cases h : getCol df c with
  | none => simp [negCell, h]
  | some vals => simp [negCell, h, isNegVal_eq_true_iff]

theorem negInRow_eq_true_iff {df : DataFrame} {i : Nat} :
    negInRow df i = true ↔
      ∃ c ∈ columnsToClean, ∃ vals, getCol df c = some vals ∧
        ∃ q : ℚ, vals.getD i none = some q ∧ q < 0 := by
  simp only [negInRow, List.any_eq_true, negCell_eq_true_iff]

example : windBin 0 = some 0 := by decide

example : windBin 360 = some 11 := by decide

example : windBin 45 = some 1 := by decide

example : windBin 361 = none := by decide

example :
    windFrequency [some 0, some 360, none, some 45] =
      [1, 1, 0, 0, 0, 0, 0, 0, 0, 0, 0, 1] := by
  decide

example :
    (plotWindAnalysis [("WS", [some 1, some 2]), ("WD", [some 0, some 360])]
        "st").outputs =
      [Output.png "st_wind_rose.png",
       Output.notice "Wind rose plot for st saved to results",
       Output.chart "st_wind_direction_variability.png"
         [1, 0, 0, 0, 0, 0, 0, 0, 0, 0, 0, 1],
       Output.notice "Wind direction variability plot for st saved to results"] := by
  decide

/-! ## Further helper lemmas for the claim theorems. -/

theorem string_append_right_cancel {s a b : String} (h : s ++ a = s ++ b) :
    a = b := by
  have hd := congrArg String.data h
  rw [String.data_append s a, String.data_append s b] at hd
  have hab := List.append_cancel_left hd
  cases a
  cases b
  exact congrArg String.mk hab

theorem string_append_ne {s a b : String} (h : a ≠ b) : s ++ a ≠ s ++ b :=
  fun hh => h (string_append_right_cancel hh)

theorem getD_eq_default_of_le {α : Type} (l : List α) (d : α) (i : Nat)
    (h : l.length ≤ i) : l.getD i d = d := by
  simp [List.getD_eq_getElem?_getD, List.getElem?_eq_none, h]

theorem getD_eq_getElem_of_lt {α : Type} (l : List α) (d : α) (i : Nat)
    (h : i < l.length) : l.getD i d = l.get ⟨i, h⟩ := by
  rw [List.getD_eq_getElem?_getD]
  simp [List.getElem?_eq_getElem h]

theorem isNegVal_getD_map_clamp (l : List Val) (i : Nat) :
    isNegVal ((l.map clampVal).getD i none) = false := by
  by_cases hi : i < l.length
  · rw [getD_map_of_lt clampVal l i hi none none]
    exact isNegVal_clampVal _
  · rw [getD_eq_default_of_le _ _ i (by simpa using Nat.le_of_not_lt hi)]
    rfl

theorem negInRow_cleanData (df : DataFrame) (i : Nat) :
    negInRow (cleanData df) i = false := by
  rw [negInRow, List.any_eq_false]
  intro c hc
  have hmon := @cleanData_getCol_monitored df c hc
  cases hg : getCol df c with
  | none =>
      rw [hg] at hmon
      simp [negCell, hmon]
  | some ovals =>
      rw [hg, Option.map_some'] at hmon
      simp only [negCell, hmon, Bool.not_eq_true]
      exact isNegVal_getD_map_clamp ovals i

theorem plotWindAnalysis_df (df : DataFrame) (fileName : String) :
    (plotWindAnalysis df fileName).df = df := by
  unfold plotWindAnalysis
  split <;> rfl

theorem map_clampVal_idem (l : List Val) :
    (l.map clampVal).map clampVal = l.map clampVal := by
  rw [List.map_map]
  have hcc : clampVal ∘ clampVal = clampVal := funext clampVal_clampVal
  rw [hcc]

/-! ## Claim theorems. -/

/-- C1: after `clean_data` runs, every numeric value present in a monitored
column of the table is nonnegative (missing values, NaN in the original,
are the `none` cells and carry no number). -/
theorem clean_data_nonneg_c1 (df : DataFrame) (c : String)
    (hc : c ∈ columnsToClean) (vals : List Val)
    (hv : getCol (cleanData df) c = some vals) :
    ∀ v ∈ vals, ∀ q : ℚ, v = some q → 0 ≤ q := by
  rw [cleanData_getCol_monitored hc] at hv
  cases h : getCol df c with
  | none => rw [h] at hv; simp at hv
  | some ovals =>
      rw [h, Option.map_some'] at hv
      intro v hvmem q hq
      obtain rfl : List.map clampVal ovals = vals := by
        exact Option.some.inj hv
      obtain ⟨w, _, rfl⟩ := List.mem_map.1 hvmem
      exact clampVal_nonneg hq

/-- C1 witness: cleaning the one-column table GHI = [-5, 2] yields
GHI = [0, 2] and the theorem applies to its first value. -/
theorem clean_data_nonneg_c1_witness :
    "GHI" ∈ columnsToClean ∧
    getCol (cleanData [("GHI", [some (-5), some 2])]) "GHI" =
      some [some 0, some 2] ∧
    (0 : ℚ) ≤ 0 :=
  ⟨by decide, by decide,
    clean_data_nonneg_c1 [("GHI", [some (-5), some 2])] "GHI" (by decide)
      [some 0, some 2] (by decide) (some 0) (by decide) 0 rfl⟩

/-- C2: after `clean_data` runs, the Cleaning flag of row `i` is 1 exactly
when some monitored column present in the table held a negative value in
that row before cleaning, and 0 otherwise. -/
theorem clean_data_flag_iff_c2 (df : DataFrame) (n : Nat) (h : Wf df n)
    (i : Nat) (hi : i < n) :
    ∃ fl, getCol (cleanData df) "Cleaning" = some fl ∧
      fl.getD i none = (if negInRow df i then some 1 else some 0) ∧
      (negInRow df i = true ↔
        ∃ c ∈ columnsToClean, ∃ vals, getCol df c = some vals ∧
          ∃ q : ℚ, vals.getD i none = some q ∧ q < 0) := by
  obtain ⟨fl, h1, _, _, h4⟩ := cleanData_flags h
  exact ⟨fl, h1, h4 i hi, negInRow_eq_true_iff⟩

/-- C2 witness: the scenario row GHI=-50, DNI=100, WD=45, WS=3 gets
Cleaning = 1 and GHI = 0 after cleaning. -/
theorem clean_data_flag_iff_c2_witness :
    Wf [("GHI", [some (-50)]), ("DNI", [some 100]), ("WD", [some 45]),
        ("WS", [some 3])] 1 ∧
    0 < 1 ∧
    (∃ fl,
      getCol (cleanData [("GHI", [some (-50)]), ("DNI", [some 100]),
        ("WD", [some 45]), ("WS", [some 3])]) "Cleaning" = some fl ∧
      fl.getD 0 none =
        (if negInRow [("GHI", [some (-50)]), ("DNI", [some 100]),
            ("WD", [some 45]), ("WS", [some 3])] 0 then some 1 else some 0) ∧
      (negInRow [("GHI", [some (-50)]), ("DNI", [some 100]),
          ("WD", [some 45]), ("WS", [some 3])] 0 = true ↔
        ∃ c ∈ columnsToClean, ∃ vals,
          getCol [("GHI", [some (-50)]), ("DNI", [some 100]),
            ("WD", [some 45]), ("WS", [some 3])] c = some vals ∧
          ∃ q : ℚ, vals.getD 0 none = some q ∧ q < 0)) ∧
    getCol (cleanData [("GHI", [some (-50)]), ("DNI", [some 100]),
      ("WD", [some 45]), ("WS", [some 3])]) "Cleaning" = some [some 1] ∧
    getCol (cleanData [("GHI", [some (-50)]), ("DNI", [some 100]),
      ("WD", [some 45]), ("WS", [some 3])]) "GHI" = some [some 0] :=
  ⟨by decide, by decide,
    clean_data_flag_iff_c2 [("GHI", [some (-50)]), ("DNI", [some 100]),
      ("WD", [some 45]), ("WS", [some 3])] 1 (by decide) 0 (by decide),
    by decide, by decide⟩

/-- C6: `clean_data` silently skips monitored columns absent from the
table, leaves every non-monitored column and the row count unchanged, and
only adds/overwrites the Cleaning column besides the monitored columns. -/
theorem clean_data_frame_c6 (df : DataFrame) (n : Nat) (h : Wf df n) :
    (∀ c, c ∉ columnsToClean → c ≠ "Cleaning" →
      getCol (cleanData df) c = getCol df c) ∧
    (∀ c, c ≠ "Cleaning" → hasCol (cleanData df) c = hasCol df c) ∧
    hasCol (cleanData df) "Cleaning" = true ∧
    Wf (cleanData df) n := by
  refine ⟨fun c h1 h2 => cleanData_getCol_not_monitored h1 h2,
    fun c h2 => hasCol_cleanData h2, ?_, cleanData_wf h⟩
  obtain ⟨fl, h1, _, _, _⟩ := cleanData_flags h
  simp [hasCol, h1]

/-- C6 witness: a table with GHI and a non-monitored Tamb column; Tamb is
untouched, the absent monitored columns raise no error, Cleaning appears. -/
theorem clean_data_frame_c6_witness :
    Wf [("GHI", [some (-3)]), ("Tamb", [some 7])] 1 ∧
    ((∀ c, c ∉ columnsToClean → c ≠ "Cleaning" →
      getCol (cleanData [("GHI", [some (-3)]), ("Tamb", [some 7])]) c =
        getCol [("GHI", [some (-3)]), ("Tamb", [some 7])] c) ∧
    (∀ c, c ≠ "Cleaning" →
      hasCol (cleanData [("GHI", [some (-3)]), ("Tamb", [some 7])]) c =
        hasCol [("GHI", [some (-3)]), ("Tamb", [some 7])] c) ∧
    hasCol (cleanData [("GHI", [some (-3)]), ("Tamb", [some 7])]) "Cleaning" =
      true ∧
    Wf (cleanData [("GHI", [some (-3)]), ("Tamb", [some 7])]) 1) :=
  ⟨by decide,
    clean_data_frame_c6 [("GHI", [some (-3)]), ("Tamb", [some 7])] 1
      (by decide)⟩

/-- C9: a NaN in a monitored column passes through `clean_data` unchanged
(it stays `none`, it is not clamped to 0), it is not counted as negative,
and when no monitored cell of the row is negative the Cleaning flag of the
row stays 0. -/
theorem clean_data_nan_c9 (df : DataFrame) (n : Nat) (h : Wf df n)
    (c : String) (hc : c ∈ columnsToClean) (vals : List Val)
    (hv : getCol df c = some vals) (i : Nat) (hi : i < n)
    (hnan : vals.getD i none = none) :
    (getCol (cleanData df) c = some (vals.map clampVal) ∧
      (vals.map clampVal).getD i none = none) ∧
    negCell df c i = false ∧
    (negInRow df i = false →
      ∃ fl, getCol (cleanData df) "Cleaning" = some fl ∧
        fl.getD i none = some 0) := by
  have hlen : vals.length = n := h.2 _ (mem_of_getCol hv)
  refine ⟨⟨?_, ?_⟩, ?_, ?_⟩
  · rw [cleanData_getCol_monitored hc, hv, Option.map_some']
  · rw [getD_map_of_lt clampVal vals i (hlen ▸ hi) none none, hnan]
    rfl
  · simp only [negCell, hv]
    rw [hnan]
    rfl
  · intro hneg
    obtain ⟨fl, h1, _, _, h4⟩ := cleanData_flags h
    refine ⟨fl, h1, ?_⟩
    rw [h4 i hi, hneg]
    rfl

/-- C9 witness: a table whose GHI value is NaN and whose DNI is 1; the NaN
survives cleaning and the Cleaning flag stays 0. -/
theorem clean_data_nan_c9_witness :
    Wf [("GHI", [none]), ("DNI", [some 1])] 1 ∧
    "GHI" ∈ columnsToClean ∧
    getCol [("GHI", [none]), ("DNI", [some 1])] "GHI" = some [none] ∧
    0 < 1 ∧
    ([none] : List Val).getD 0 none = none ∧
    ((getCol (cleanData [("GHI", [none]), ("DNI", [some 1])]) "GHI" =
        some (([none] : List Val).map clampVal) ∧
      (([none] : List Val).map clampVal).getD 0 none = none) ∧
    negCell [("GHI", [none]), ("DNI", [some 1])] "GHI" 0 = false ∧
    (negInRow [("GHI", [none]), ("DNI", [some 1])] 0 = false →
      ∃ fl, getCol (cleanData [("GHI", [none]), ("DNI", [some 1])])
          "Cleaning" = some fl ∧
        fl.getD 0 none = some 0)) :=
  ⟨by decide, by decide, by decide, by decide, by decide,
    clean_data_nan_c9 [("GHI", [none]), ("DNI", [some 1])] 1 (by decide)
      "GHI" (by decide) [none] (by decide) 0 (by decide) (by decide)⟩

/-- C10: re-running `clean_data` on an already-cleaned table leaves every
monitored column unchanged but resets the Cleaning column to all zeros, so
the record of originally-negative rows is lost. -/
theorem clean_data_reclean_c10 (df : DataFrame) (n : Nat) (h : Wf df n) :
    (∀ c ∈ columnsToClean,
      getCol (cleanData (cleanData df)) c = getCol (cleanData df) c) ∧
    getCol (cleanData (cleanData df)) "Cleaning" =
      some (List.replicate n (some 0)) := by
  constructor
  · intro c hc
    rw [cleanData_getCol_monitored hc, cleanData_getCol_monitored hc]
    cases hg : getCol df c with
    | none => rfl
    | some vals =>
        rw [Option.map_some', Option.map_some', map_clampVal_idem]
  · obtain ⟨fl, h1, h2, _, h4⟩ := cleanData_flags (cleanData_wf h)
    have hfl : fl = List.replicate n (some 0) := by
      refine List.ext_getElem (by simp [h2]) (fun i hi1 hi2 => ?_)
      have hflag := h4 i (h2 ▸ hi1)
      rw [negInRow_cleanData] at hflag
      rw [getD_eq_getElem_of_lt fl none i hi1] at hflag
      simpa using hflag
    rw [h1, hfl]

/-- C10 witness: GHI = [-5, 2] gets Cleaning = [1, 0] after one clean and
Cleaning = [0, 0] after a second clean, while GHI stays [0, 2]. -/
theorem clean_data_reclean_c10_witness :
    Wf [("GHI", [some (-5), some 2])] 2 ∧
    getCol (cleanData [("GHI", [some (-5), some 2])]) "Cleaning" =
      some [some 1, some 0] ∧
    ((∀ c ∈ columnsToClean,
      getCol (cleanData (cleanData [("GHI", [some (-5), some 2])])) c =
        getCol (cleanData [("GHI", [some (-5), some 2])]) c) ∧
    getCol (cleanData (cleanData [("GHI", [some (-5), some 2])]))
        "Cleaning" = some (List.replicate 2 (some 0))) :=
  ⟨by decide, by decide,
    clean_data_reclean_c10 [("GHI", [some (-5), some 2])] 2 (by decide)⟩

/-- C3: the Summarizer writes exactly one summary per input CSV file, at
the deterministic path derived from the base name with suffix _summary,
and its statistics are those of the cleaned (clamped) table, not the raw
input. -/
theorem summarizer_one_per_csv_c3 (files : List (String × DataFrame)) :
    runSummarizer files =
      (files.filter (fun f => f.1.endsWith ".csv")).map
        (fun f => Output.summary (baseName f.1 ++ "_summary.csv")
          (describeTable (cleanData f.2))) := by
  induction files with
  | nil => rfl
  | cons f fs ih =>
      simp only [runSummarizer, List.foldr_cons, summarizeFile] at ih ⊢
      rw [List.filter_cons]
      cases h : f.1.endsWith ".csv" <;> simp [h, ih]

/-- C4: the radial bar chart bins WD with the 13 fixed edges 0, 30, ...,
360 (12 bins of 30 degrees), the lowest edge inclusive: WD = 0 is counted
in the first bin and WD = 360 in the last bin, as the rendered frequency
counts of `plot_wind_analysis` show. -/
theorem wind_binning_c4 :
    binEdges = [0, 30, 60, 90, 120, 150, 180, 210, 240, 270, 300, 330, 360] ∧
    binEdges.length = 13 ∧
    windBin 0 = some 0 ∧
    windBin 360 = some 11 ∧
    windFrequency [some 0, some 360] =
      [1, 0, 0, 0, 0, 0, 0, 0, 0, 0, 0, 1] ∧
    (plotWindAnalysis [("WS", [some 1, some 2]), ("WD", [some 0, some 360])]
        "st").outputs =
      [Output.png "st_wind_rose.png",
       Output.notice "Wind rose plot for st saved to results",
       Output.chart "st_wind_direction_variability.png"
         [1, 0, 0, 0, 0, 0, 0, 0, 0, 0, 0, 1],
       Output.notice "Wind direction variability plot for st saved to results"] :=
  ⟨by decide, by decide, by decide, by decide, by decide, by decide⟩

/-- C5: the row drop of the wind analysis is local to it: the caller's
table after `plot_wind_analysis` is exactly the table passed in, so in the
driver the temperature analysis receives the full cleaned table. -/
theorem wind_drop_local_c5 (df : DataFrame) (base : String)
    (fileName : String) (raw : DataFrame) :
    (plotWindAnalysis df base).df = df ∧
    processFile fileName raw =
      (plotWindAnalysis (cleanData raw) (baseName fileName)).outputs ++
        (plotTemperatureAnalysis (cleanData raw) (baseName fileName)).outputs := by
  refine ⟨plotWindAnalysis_df df base, ?_⟩
  simp only [processFile, plotWindAnalysis_df]

/-- C7: on a table lacking WS or WD, the wind analysis only prints a skip
notice — it produces no image and no chart file — and the driver still
runs the temperature analysis for the file afterwards. -/
theorem wind_skip_c7 (raw : DataFrame) (fileName : String)
    (h : hasCol raw "WS" = false ∨ hasCol raw "WD" = false) :
    (plotWindAnalysis (cleanData raw) (baseName fileName)).outputs =
      [Output.notice ("Skipping wind analysis for " ++ baseName fileName ++
        ": WS or WD column missing.")] ∧
    (∀ s, Output.png s ∉
      (plotWindAnalysis (cleanData raw) (baseName fileName)).outputs) ∧
    (∀ s counts, Output.chart s counts ∉
      (plotWindAnalysis (cleanData raw) (baseName fileName)).outputs) ∧
    processFile fileName raw =
      Output.notice ("Skipping wind analysis for " ++ baseName fileName ++
        ": WS or WD column missing.") ::
        (plotTemperatureAnalysis (cleanData raw) (baseName fileName)).outputs := by
  have hc : hasCol (cleanData raw) "WS" = false ∨
      hasCol (cleanData raw) "WD" = false := by
    rcases h with h | h
    · exact Or.inl (by rw [hasCol_cleanData (by decide), h])
    · exact Or.inr (by rw [hasCol_cleanData (by decide), h])
  have houts :
      (plotWindAnalysis (cleanData raw) (baseName fileName)).outputs =
        [Output.notice ("Skipping wind analysis for " ++ baseName fileName ++
          ": WS or WD column missing.")] := by
    unfold plotWindAnalysis
    rw [if_pos hc]
  refine ⟨houts, ?_, ?_, ?_⟩
  · intro s
    rw [houts]
    simp
  · intro s counts
    rw [houts]
    simp
  · simp only [processFile, plotWindAnalysis_df]
    rw [houts]
    rfl

/-- C7 witness: a table holding only WD; the wind analysis is skipped with
the notice, produces no files, and the driver still runs the temperature
analysis. -/
theorem wind_skip_c7_witness :
    hasCol [("WD", [some 10])] "WS" = false ∧
    ((plotWindAnalysis (cleanData [("WD", [some 10])])
        (baseName "a.csv")).outputs =
      [Output.notice ("Skipping wind analysis for " ++ baseName "a.csv" ++
        ": WS or WD column missing.")] ∧
    (∀ s, Output.png s ∉
      (plotWindAnalysis (cleanData [("WD", [some 10])])
        (baseName "a.csv")).outputs) ∧
    (∀ s counts, Output.chart s counts ∉
      (plotWindAnalysis (cleanData [("WD", [some 10])])
        (baseName "a.csv")).outputs) ∧
    processFile "a.csv" [("WD", [some 10])] =
      Output.notice ("Skipping wind analysis for " ++ baseName "a.csv" ++
        ": WS or WD column missing.") ::
        (plotTemperatureAnalysis (cleanData [("WD", [some 10])])
          (baseName "a.csv")).outputs) :=
  ⟨by decide, wind_skip_c7 [("WD", [some 10])] "a.csv" (Or.inl (by decide))⟩

/-- C8: the temperature analysis saves the RH-vs-temperature scatter
exactly when RH, ModA and ModB are all present, saves the
RH-vs-solar-radiation scatter exactly when GHI is also present, and on a
missing required column only logs a skip notice. -/
theorem temperature_guard_c8 (df : DataFrame) (base : String) :
    (Output.png (base ++ "_RH_vs_Temperature.png") ∈
        (plotTemperatureAnalysis df base).outputs ↔
      (hasCol df "RH" = true ∧ hasCol df "ModA" = true ∧
        hasCol df "ModB" = true)) ∧
    (Output.png (base ++ "_RH_vs_SolarRadiation.png") ∈
        (plotTemperatureAnalysis df base).outputs ↔
      (hasCol df "RH" = true ∧ hasCol df "ModA" = true ∧
        hasCol df "ModB" = true ∧ hasCol df "GHI" = true)) ∧
    ((hasCol df "RH" = false ∨ hasCol df "ModA" = false ∨
        hasCol df "ModB" = false) →
      (plotTemperatureAnalysis df base).outputs =
        [Output.notice ("Skipping temperature analysis for " ++ base ++
          ": missing required columns RH, ModA, ModB.")]) := by
  by_cases hg : hasCol df "RH" = false ∨ hasCol df "ModA" = false ∨
      hasCol df "ModB" = false
  · have houts : (plotTemperatureAnalysis df base).outputs =
        [Output.notice ("Skipping temperature analysis for " ++ base ++
          ": missing required columns RH, ModA, ModB.")] := by
      unfold plotTemperatureAnalysis
      rw [if_pos hg]
    refine ⟨?_, ?_, fun _ => houts⟩
    · rw [houts]
      constructor
      · intro hmem
        simp at hmem
      · rintro ⟨h1, h2, h3⟩
        exfalso
        rcases hg with hgg | hgg | hgg
        · exact absurd hgg (by simp [h1])
        · exact absurd hgg (by simp [h2])
        · exact absurd hgg (by simp [h3])
    · rw [houts]
      constructor
      · intro hmem
        simp at hmem
      · rintro ⟨h1, h2, h3, _⟩
        exfalso
        rcases hg with hgg | hgg | hgg
        · exact absurd hgg (by simp [h1])
        · exact absurd hgg (by simp [h2])
        · exact absurd hgg (by simp [h3])
  · have h1 : hasCol df "RH" = true := by
      cases hh : hasCol df "RH"
      · exact absurd (Or.inl hh) hg
      · rfl
    have h2 : hasCol df "ModA" = true := by
      cases hh : hasCol df "ModA"
      · exact absurd (Or.inr (Or.inl hh)) hg
      · rfl
    have h3 : hasCol df "ModB" = true := by
      cases hh : hasCol df "ModB"
      · exact absurd (Or.inr (Or.inr hh)) hg
      · rfl
    have houts : (plotTemperatureAnalysis df base).outputs =
        [Output.png (base ++ "_RH_vs_Temperature.png"),
         Output.notice ("RH vs. Temperature scatter plot for " ++ base ++
           " saved to results")] ++
        (if hasCol df "GHI" = true then
          [Output.png (base ++ "_RH_vs_SolarRadiation.png"),
           Output.notice ("RH vs. Solar Radiation scatter plot for " ++
             base ++ " saved to results")]
         else []) := by
      unfold plotTemperatureAnalysis
      rw [if_neg hg]
    have hne : (base ++ "_RH_vs_SolarRadiation.png") ≠
        (base ++ "_RH_vs_Temperature.png") :=
      string_append_ne (by decide)
    refine ⟨?_, ?_, ?_⟩
    · rw [houts]
      simp [h1, h2, h3]
    · rw [houts]
      by_cases hGHI : hasCol df "GHI" = true
      · rw [if_pos hGHI]
        simp [h1, h2, h3, hGHI]
      · rw [if_neg hGHI]
        simp [h1, h2, h3, hne, hGHI]
    · intro hcontra
      exfalso
      rcases hcontra with hh | hh | hh
      · exact absurd hh (by simp [h1])
      · exact absurd hh (by simp [h2])
      · exact absurd hh (by simp [h3])

/-- C8 witness: with RH, ModA, ModB present the first scatter is saved;
with ModB missing only the skip notice is produced. -/
theorem temperature_guard_c8_witness :
    Output.png ("s" ++ "_RH_vs_Temperature.png") ∈
      (plotTemperatureAnalysis
        [("RH", [some 1]), ("ModA", [some 2]), ("ModB", [some 3])]
        "s").outputs ∧
    (plotTemperatureAnalysis [("RH", [some 1]), ("ModA", [some 2])]
        "s").outputs =
      [Output.notice ("Skipping temperature analysis for " ++ "s" ++
        ": missing required columns RH, ModA, ModB.")] :=
  ⟨(temperature_guard_c8
      [("RH", [some 1]), ("ModA", [some 2]), ("ModB", [some 3])] "s").1.mpr
    ⟨by decide, by decide, by decide⟩,
   (temperature_guard_c8 [("RH", [some 1]), ("ModA", [some 2])] "s").2.2
    (Or.inr (Or.inr (by decide)))⟩
